import Mathlib

/-!
Verification of the deployment-assembly pipeline of
`packages/graphql-transformer-core/src/util/amplifyUtils.ts`:
project-configuration loading, merging of user configuration with the
GraphQL transform output, writing a deployment to disk, and the
per-file upload retry.

JavaScript objects are embedded as association lists `List (String × α)`
in insertion order; property assignment is `setKey` (replace in place or
append), property access is `lookupKey` (first match).  Errors thrown by
the TypeScript code are embedded as `Except String` values carrying the
thrown error message, since the source constructs every error as
`new Error(message)` with no subclassing.
-/

namespace AmplifyUtils

/-- JS property read: first value bound to key `k`, if any. -/
def lookupKey {α : Type} : List (String × α) → String → Option α
  | [], _ => none
  | (k1, v) :: rest, k => if k1 = k then some v else lookupKey rest k

/-- JS property assignment `o[k] = v`: replace the value at an existing
key in place, otherwise append the new binding at the end. -/
def setKey {α : Type} : List (String × α) → String → α → List (String × α)
  | [], k, v => [(k, v)]
  | (k1, v1) :: rest, k, v =>
    if k1 = k then (k, v) :: rest else (k1, v1) :: setKey rest k v

/-- The keys of an object, in insertion order (`Object.keys`). -/
def keysOf {α : Type} (l : List (String × α)) : List String := l.map Prod.fst

theorem lookupKey_setKey_self {α : Type} (l : List (String × α)) (k : String) (v : α) :
    lookupKey (setKey l k v) k = some v := by
  induction l with
  | nil => simp [setKey, lookupKey]
  | cons hd tl ih =>
    by_cases h : hd.1 = k
    · simp [setKey, h, lookupKey]
    · simpa [setKey, h, lookupKey] using ih

theorem lookupKey_setKey_ne {α : Type} (l : List (String × α)) (k k1 : String) (v : α)
    (h : k1 ≠ k) : lookupKey (setKey l k v) k1 = lookupKey l k1 := by
  have hk1 : ¬ k = k1 := fun h1 => h h1.symm
  induction l with
  | nil => simp [setKey, lookupKey, hk1]
  | cons hd tl ih =>
    by_cases h2 : hd.1 = k
    · subst h2
      simp [setKey, lookupKey, hk1]
    · by_cases h3 : hd.1 = k1
      · simp [setKey, h2, lookupKey, h3, h]
      · simpa [setKey, h2, lookupKey, h3] using ih

theorem isSome_lookupKey_setKey {α : Type} (l : List (String × α)) (k k1 : String) (v : α)
    (h : (lookupKey l k1).isSome) : (lookupKey (setKey l k v) k1).isSome := by
  by_cases h1 : k1 = k
  · subst h1; simp [lookupKey_setKey_self]
  · rwa [lookupKey_setKey_ne _ _ _ _ h1]

/-- Looking up a key after folding `setKey` with a key-determined value
over a list of keys: processed keys map to their computed value,
unprocessed keys fall through to the accumulator. -/
theorem lookupKey_foldl_setKey {α : Type} (f : String → α) (ks : List String) :
    ∀ (acc : List (String × α)) (k : String),
      lookupKey (ks.foldl (fun a k1 => setKey a k1 (f k1)) acc) k =
        if k ∈ ks then some (f k) else lookupKey acc k := by
  induction ks with
  | nil => intro acc k; simp
  | cons hd tl ih =>
    intro acc k
    by_cases h : k ∈ tl
    · simp [List.foldl_cons, ih, h, List.mem_cons]
    · by_cases h2 : k = hd
      · subst h2
        simp [List.foldl_cons, ih, h, lookupKey_setKey_self]
      · simp [List.foldl_cons, ih, h, List.mem_cons, h2,
          lookupKey_setKey_ne _ _ _ _ h2]

/-! ## The per-file uploader (`uploadFile`, amplifyUtils.ts lines 213-226)

The upload transport is embedded as a function from the attempt index
(0-based: the i-th invocation of `opts.upload`) to either a remote
location string or a thrown error message.  `uploadFile` returns the
settled outcome of its promise together with the list of backoff waits
performed (in order) and the number of times the transport was invoked.

Faithful to the source: in the `catch` block, after the recursive retry
call is awaited, control falls through to `throw e` unconditionally, so
the caught error is re-raised even when the recursive retry succeeded;
and when the recursive retry itself rejects, that rejection propagates
out of the `catch` block directly. -/

def uploadFile (upload : Nat → Except String String) :
    (attempt : Nat) → (backoffMS : Nat) → (numTries : Nat) →
    Except String String × List Nat × Nat
  -- `numTries ≤ 1` (the source guard `numTries > 1` is false): a failure
  -- is re-thrown immediately with no further retry.
  | attempt, _, 0 =>
    match upload attempt with
    | .ok loc => (.ok loc, [], 1)
    | .error e => (.error e, [], 1)
  | attempt, _, 1 =>
    match upload attempt with
    | .ok loc => (.ok loc, [], 1)
    | .error e => (.error e, [], 1)
  -- `numTries = nm1 + 2 > 1`: wait `backoffMS`, retry with the backoff
  -- doubled and `numTries - 1 = nm1 + 1` tries remaining.
  | attempt, backoffMS, nm1 + 2 =>
    match upload attempt with
    | .ok loc => (.ok loc, [], 1)
    | .error e =>
      match uploadFile upload (attempt + 1) (backoffMS * 2) (nm1 + 1) with
      | (.ok _, waits, n) => (.error e, backoffMS :: waits, n + 1)
      | (.error e1, waits, n) => (.error e1, backoffMS :: waits, n + 1)

/-- `uploadFile` at its default parameters: `backoffMS = 1000`,
`numTries = 5`, counting transport invocations from attempt 0. -/
def uploadFileDefault (upload : Nat → Except String String) :
    Except String String × List Nat × Nat :=
  uploadFile upload 0 1000 5

/-- An upload stub that fails on its first four invocations (attempts
0..3, with distinct error messages) and succeeds on its fifth
(attempt 4). -/
def failFourTimesStub : Nat → Except String String :=
  fun i => if i < 4 then .error ("attempt" ++ toString i) else .ok "location"

/-- C1: with the default attempt budget 5 and default backoff 1000, an
upload stub that fails on its first 4 invocations and succeeds on the
5th is invoked exactly 5 times with waits 1000, 2000, 4000, 8000 between
attempts — but, contrary to the claim, the overall per-file upload call
does not succeed: the `catch` block falls through to `throw e` even
after the awaited recursive retry has succeeded, so the call rejects
with the fourth attempt error. -/
theorem uploadFileDefault_retry_success_still_rejects :
    failFourTimesStub 0 = .error "attempt0" ∧
    failFourTimesStub 1 = .error "attempt1" ∧
    failFourTimesStub 2 = .error "attempt2" ∧
    failFourTimesStub 3 = .error "attempt3" ∧
    failFourTimesStub 4 = .ok "location" ∧
    uploadFileDefault failFourTimesStub =
      (.error "attempt3", [1000, 2000, 4000, 8000], 5) :=
  ⟨rfl, rfl, rfl, rfl, rfl, rfl⟩

/-- C4: if the supplied upload function fails on every invocation with
one fixed error, the per-file upload call with the default attempt
budget fails, the upload function is invoked exactly 5 times with waits
1000, 2000, 4000, 8000 between attempts, and the error delivered to the
caller is that original error unchanged (same identity and message), not
a wrapped error. -/
theorem uploadFileDefault_exhaustion (f : Nat → Except String String) (e : String)
    (h : ∀ i, f i = .error e) :
    uploadFileDefault f = (.error e, [1000, 2000, 4000, 8000], 5) := by
  simp [uploadFileDefault, uploadFile, h 0, h 1, h 2, h 3, h 4]

/-- Witness for C4: a stub that always fails with the fixed error
message `boom` exhausts all 5 attempts and delivers `boom` itself. -/
theorem uploadFileDefault_exhaustion_witness :
    uploadFileDefault (fun _ => .error "boom") =
      (.error "boom", [1000, 2000, 4000, 8000], 5) :=
  uploadFileDefault_exhaustion (fun _ => .error "boom") "boom" (fun _ => rfl)

/-! ## CloudFormation template model

The template trees handled by `mergeUserConfigWithTransformOutput` and
`writeDeploymentToDisk`.  Only the parts the code inspects are given
structure: the `Type` of a resource (embedded as `resType`, since `Type` is a
Lean keyword), its `DependsOn` list, and — for the nested-stack
resources the merge synthesizes via `new CloudFormation.Stack({...})`
— the `Properties.Parameters` map and `Properties.TemplateURL`.
Parameter declarations are kept as raw text since the code only ever
reads their keys. -/

inductive CfnValue where
  | strVal (s : String)
  | ref (name : String)
  | getAtt (resource : String) (attr : String)
  | joinVal (sep : String) (parts : List CfnValue)

inductive CfnProps where
  | stackProps (parameters : List (String × Option CfnValue)) (templateURL : CfnValue)
  | otherProps

structure CfnResource where
  resType : String
  dependsOn : List String
  props : CfnProps

structure CfnTemplate where
  Resources : List (String × CfnResource)
  Parameters : List (String × String)

/-- The `DeploymentResources` bundle produced by the transform engine
and by the merge (schema text, resolver documents by filename, stacks by
name, the root stack, and packaged function artifacts by name mapped to
their on-disk source path). -/
structure DeploymentResources where
  schema : String
  resolvers : List (String × String)
  -- the `stacks` field of the source; named `stacksMap` here because
  -- `stacks` is a reserved attribute token in the ambient Lean environment
  stacksMap : List (String × CfnTemplate)
  rootStack : CfnTemplate
  functions : List (String × List String)

/-- The user configuration bundle returned by
`readProjectConfiguration` (`Partial<DeploymentResources>` restricted to
the fields that function actually produces). -/
structure UserConfig where
  schema : String
  resolvers : List (String × String)
  -- the `stacks` field of the source (see `DeploymentResources.stacksMap`)
  stacksMap : List (String × CfnTemplate)

/-- Named constant from the external `graphql-transformer-common`
package (`ResourceConstants.PARAMETERS.AppSyncApiId`).  The package is
not part of the sources under study; the constant is an opaque label and
no claim depends on its exact string value. -/
def AppSyncApiId : String := "AppSyncApiId"

/-- Named constant `ResourceConstants.RESOURCES.GraphQLAPILogicalID`
from `graphql-transformer-common` (see `AppSyncApiId`). -/
def GraphQLAPILogicalID : String := "GraphQLAPI"

/-- Named constant `ResourceConstants.PARAMETERS.S3DeploymentBucket`
from `graphql-transformer-common` (see `AppSyncApiId`). -/
def S3DeploymentBucket : String := "S3DeploymentBucket"

/-- Named constant `ResourceConstants.PARAMETERS.S3DeploymentRootKey`
from `graphql-transformer-common` (see `AppSyncApiId`). -/
def S3DeploymentRootKey : String := "S3DeploymentRootKey"

/-! ## The merge (`mergeUserConfigWithTransformOutput`, lines 24-99) -/

/-- The fixed allow-list of anchor resource types
(`resourceTypesToDependOn`, lines 42-46): membership test of the
`Type` field against the three literal keys of that object. -/
def resourceTypesToDependOn (t : String) : Bool :=
  t == "AWS::CloudFormation::Stack" ||
  t == "AWS::AppSync::GraphQLApi" ||
  t == "AWS::AppSync::GraphQLSchema"

/-- `allResourceIds` (lines 47-52): the resource ids of the root stack
whose resource `Type` is in the allow-list, in key order. -/
def allResourceIds (rootStack : CfnTemplate) : List String :=
  (keysOf rootStack.Resources).filter fun k =>
    match lookupKey rootStack.Resources k with
    | some resource => resourceTypesToDependOn resource.resType
    | none => false

/-- `customStackParams` (lines 53-61): every root-stack parameter key
mapped to `Fn.Ref` of itself (built by the spread-reduce, i.e. repeated
property assignment), then the assignment of the `AppSyncApiId`
parameter to `Fn.GetAtt(GraphQLAPILogicalID, "ApiId")`. -/
def customStackParams (rootStack : CfnTemplate) : List (String × CfnValue) :=
  setKey
    ((keysOf rootStack.Parameters).foldl
      (fun acc k => setKey acc k (CfnValue.ref k)) [])
    AppSyncApiId (CfnValue.getAtt GraphQLAPILogicalID "ApiId")

/-- `parametersForStack` (lines 72-75): for every parameter key the
user stack declares, its lookup in `customStackParams`; the lookup is an
`Option` because a declared key absent from `customStackParams` is bound
to JavaScript `undefined`. -/
def parametersForStack (csp : List (String × CfnValue))
    (userDefinedStack : CfnTemplate) : List (String × Option CfnValue) :=
  (keysOf userDefinedStack.Parameters).foldl
    (fun acc k => setKey acc k (lookupKey csp k)) []

/-- Line 78: split `userStack` on the regex of non-letters and join
with the empty string, i.e. strip every
non-letter character from the stack name. -/
def stackResourceIdOf (userStack : String) : String :=
  String.mk (userStack.toList.filter fun c => c.isAlpha)

/-- The `TemplateURL` of a synthesized nested stack (lines 81-90). -/
def templateURLFor (userStack : String) : CfnValue :=
  .joinVal "/"
    [.strVal "https://s3.amazonaws.com", .ref S3DeploymentBucket,
     .ref S3DeploymentRootKey, .strVal "stacks", .strVal userStack]

/-- The nested-stack resource synthesized for one user stack
(`new CloudFormation.Stack({Parameters, TemplateURL}).dependsOn(allResourceIds)`,
lines 79-91). -/
def customNestedStackFor (csp : List (String × CfnValue)) (anchors : List String)
    (userStack : String) (userDefinedStack : CfnTemplate) : CfnResource :=
  { resType := "AWS::CloudFormation::Stack"
    dependsOn := anchors
    props := .stackProps (parametersForStack csp userDefinedStack) (templateURLFor userStack) }

/-- The duplicate-stack-name error message (lines 65-66).  The template
literal uses a backslash line continuation, so the indentation of the
continuation line (12 spaces) is part of the message. -/
def duplicateStackNameMsg (userStack : String) : String :=
  "You cannot provide a stack named " ++ userStack ++ " as it " ++
  "            will be overwritten by a stack generated by the GraphQL Transform."

/-- The `for (const userStack of Object.keys(userStacks))` loop (lines
63-93), threading the mutated `transformStacks` object and the mutated
`rootStack.Resources` object.  The duplicate check reads
`transformOutput.stacks`, which is the same (mutated) object as
`transformStacks`. -/
def mergeStacksLoop (csp : List (String × CfnValue)) (anchors : List String) :
    List (String × CfnTemplate) → List (String × CfnTemplate) →
    List (String × CfnResource) →
    Except String (List (String × CfnTemplate) × List (String × CfnResource))
  | [], stks, resources => .ok (stks, resources)
  | (userStack, userDefinedStack) :: rest, stks, resources =>
    if (lookupKey stks userStack).isSome then
      .error (duplicateStackNameMsg userStack)
    else
      mergeStacksLoop csp anchors rest
        (setKey stks userStack userDefinedStack)
        (setKey resources (stackResourceIdOf userStack)
          (customNestedStackFor csp anchors userStack userDefinedStack))

/-- `mergeUserConfigWithTransformOutput` (lines 24-99): user resolvers
overwrite transform resolvers; each user stack is checked against the
existing stacks, added to the stacks map, and linked into the root stack
as a synthesized nested-stack resource. -/
def mergeUserConfigWithTransformOutput (userConfig : UserConfig)
    (transformOutput : DeploymentResources) : Except String DeploymentResources :=
  let transformResolvers :=
    userConfig.resolvers.foldl (fun acc kv => setKey acc kv.1 kv.2) transformOutput.resolvers
  let rootStack := transformOutput.rootStack
  let anchors := allResourceIds rootStack
  let csp := customStackParams rootStack
  match mergeStacksLoop csp anchors userConfig.stacksMap transformOutput.stacksMap
      rootStack.Resources with
  | .error e => .error e
  | .ok (stacks1, resources1) =>
    .ok { transformOutput with
          resolvers := transformResolvers
          stacksMap := stacks1
          rootStack := { rootStack with Resources := resources1 } }

/-! ## Properties of the merge loop -/

/-- Resources already bound to the anchor `DependsOn` list keep an
anchor-`DependsOn` binding through the rest of the loop: the loop only
ever writes synthesized nested-stack resources, whose `DependsOn` is the
anchor list. -/
theorem mergeStacksLoop_preserves_anchor_dependsOn
    (csp : List (String × CfnValue)) (anchors : List String) :
    ∀ (l : List (String × CfnTemplate)) (stks : List (String × CfnTemplate))
      (resources : List (String × CfnResource))
      (stks1 : List (String × CfnTemplate)) (resources1 : List (String × CfnResource)),
      mergeStacksLoop csp anchors l stks resources = .ok (stks1, resources1) →
      ∀ id r, lookupKey resources id = some r → r.dependsOn = anchors →
        ∃ r1, lookupKey resources1 id = some r1 ∧ r1.dependsOn = anchors := by
  intro l
  induction l with
  | nil =>
    intro stks resources stks1 resources1 h id r hr hdep
    simp only [mergeStacksLoop, Except.ok.injEq, Prod.mk.injEq] at h
    rw [← h.2]
    exact ⟨r, hr, hdep⟩
  | cons hd rest ih =>
    intro stks resources stks1 resources1 h id r hr hdep
    obtain ⟨userStack, userDefinedStack⟩ := hd
    by_cases hg : (lookupKey stks userStack).isSome
    · simp [mergeStacksLoop, hg] at h
    · simp only [mergeStacksLoop, hg, Bool.false_eq_true, if_false] at h
      by_cases hid : stackResourceIdOf userStack = id
      · refine ih _ _ _ _ h id
          (customNestedStackFor csp anchors userStack userDefinedStack) ?_ rfl
        rw [← hid]
        exact lookupKey_setKey_self _ _ _
      · refine ih _ _ _ _ h id r ?_ hdep
        rwa [lookupKey_setKey_ne _ _ _ _ (fun h1 => hid h1.symm)]

/-- Every user stack processed by a successful run of the loop leaves a
resource with the anchor `DependsOn` list at its stripped resource id. -/
theorem mergeStacksLoop_member_dependsOn
    (csp : List (String × CfnValue)) (anchors : List String) :
    ∀ (l : List (String × CfnTemplate)) (stks : List (String × CfnTemplate))
      (resources : List (String × CfnResource))
      (stks1 : List (String × CfnTemplate)) (resources1 : List (String × CfnResource)),
      mergeStacksLoop csp anchors l stks resources = .ok (stks1, resources1) →
      ∀ s, s ∈ keysOf l →
        ∃ r1, lookupKey resources1 (stackResourceIdOf s) = some r1 ∧
          r1.dependsOn = anchors := by
  intro l
  induction l with
  | nil => intro _ _ _ _ _ s hs; simp [keysOf] at hs
  | cons hd rest ih =>
    intro stks resources stks1 resources1 h s hs
    obtain ⟨userStack, userDefinedStack⟩ := hd
    by_cases hg : (lookupKey stks userStack).isSome
    · simp [mergeStacksLoop, hg] at h
    · simp only [mergeStacksLoop, hg, Bool.false_eq_true, if_false] at h
      rcases List.mem_cons.mp hs with h1 | h1
      · subst h1
        exact mergeStacksLoop_preserves_anchor_dependsOn csp anchors _ _ _ _ _ h _
          (customNestedStackFor csp anchors s userDefinedStack)
          (lookupKey_setKey_self _ _ _) rfl
      · exact ih _ _ _ _ h s h1

/-- A successful run of the loop implies none of its user stack names
was present in the stacks object it started from. -/
theorem mergeStacksLoop_ok_not_mem
    (csp : List (String × CfnValue)) (anchors : List String) :
    ∀ (l : List (String × CfnTemplate)) (stks : List (String × CfnTemplate))
      (resources : List (String × CfnResource))
      (res : List (String × CfnTemplate) × List (String × CfnResource)),
      mergeStacksLoop csp anchors l stks resources = .ok res →
      ∀ n, n ∈ keysOf l → lookupKey stks n = none := by
  intro l
  induction l with
  | nil => intro _ _ _ _ n hn; simp [keysOf] at hn
  | cons hd rest ih =>
    intro stks resources res h n hn
    obtain ⟨userStack, userDefinedStack⟩ := hd
    by_cases hg : (lookupKey stks userStack).isSome
    · simp [mergeStacksLoop, hg] at h
    · simp only [mergeStacksLoop, hg, Bool.false_eq_true, if_false] at h
      rcases List.mem_cons.mp hn with h1 | h1
      · subst h1
        exact Option.not_isSome_iff_eq_none.mp hg
      · by_contra hne
        have h2 : (lookupKey stks n).isSome := by
          cases h3 : lookupKey stks n with
          | none => exact absurd h3 hne
          | some _ => simp
        have h4 := isSome_lookupKey_setKey stks userStack n userDefinedStack h2
        have h5 := ih _ _ _ h n h1
        rw [h5] at h4
        simp at h4

/-- Resource ids not reachable as the stripped id of any remaining user
stack are untouched by the loop. -/
theorem mergeStacksLoop_preserves_other_ids
    (csp : List (String × CfnValue)) (anchors : List String) :
    ∀ (l : List (String × CfnTemplate)) (stks : List (String × CfnTemplate))
      (resources : List (String × CfnResource))
      (stks1 : List (String × CfnTemplate)) (resources1 : List (String × CfnResource)),
      mergeStacksLoop csp anchors l stks resources = .ok (stks1, resources1) →
      ∀ id, (∀ n, n ∈ keysOf l → stackResourceIdOf n ≠ id) →
        lookupKey resources1 id = lookupKey resources id := by
  intro l
  induction l with
  | nil =>
    intro stks resources stks1 resources1 h id _
    simp only [mergeStacksLoop, Except.ok.injEq, Prod.mk.injEq] at h
    rw [← h.2]
  | cons hd rest ih =>
    intro stks resources stks1 resources1 h id hid
    obtain ⟨userStack, userDefinedStack⟩ := hd
    by_cases hg : (lookupKey stks userStack).isSome
    · simp [mergeStacksLoop, hg] at h
    · simp only [mergeStacksLoop, hg, Bool.false_eq_true, if_false] at h
      have h1 := ih _ _ _ _ h id (fun n hn => hid n (List.mem_cons_of_mem _ hn))
      rw [h1, lookupKey_setKey_ne]
      intro h2
      exact hid userStack (List.mem_cons_self _ _) h2.symm

/-- Under injectivity of the stripped resource ids over the processed
user stack names, each user stack ends up bound, at its stripped id, to
exactly the nested-stack resource synthesized from its own template. -/
theorem mergeStacksLoop_member_resource
    (csp : List (String × CfnValue)) (anchors : List String) :
    ∀ (l : List (String × CfnTemplate)) (stks : List (String × CfnTemplate))
      (resources : List (String × CfnResource))
      (stks1 : List (String × CfnTemplate)) (resources1 : List (String × CfnResource)),
      mergeStacksLoop csp anchors l stks resources = .ok (stks1, resources1) →
      (∀ s1 s2, s1 ∈ keysOf l → s2 ∈ keysOf l →
        stackResourceIdOf s1 = stackResourceIdOf s2 → s1 = s2) →
      ∀ s tdef, (s, tdef) ∈ l →
        lookupKey resources1 (stackResourceIdOf s) =
          some (customNestedStackFor csp anchors s tdef) := by
  intro l
  induction l with
  | nil => intro _ _ _ _ _ _ s tdef hs; simp at hs
  | cons hd rest ih =>
    intro stks resources stks1 resources1 h hinj s tdef hs
    obtain ⟨userStack, userDefinedStack⟩ := hd
    by_cases hg : (lookupKey stks userStack).isSome
    · simp [mergeStacksLoop, hg] at h
    · simp only [mergeStacksLoop, hg, Bool.false_eq_true, if_false] at h
      rcases List.mem_cons.mp hs with h1 | h1
      · obtain ⟨h2, h3⟩ := Prod.mk.injEq .. ▸ h1
        subst h2; subst h3
        have hpres := mergeStacksLoop_preserves_other_ids csp anchors _ _ _ _ _ h
          (stackResourceIdOf s) ?_
        · rw [hpres, lookupKey_setKey_self]
        · intro n hn hstrip
          have hn1 : n ∈ keysOf ((s, tdef) :: rest) :=
            List.mem_cons_of_mem _ hn
          have hs1 : s ∈ keysOf ((s, tdef) :: rest) := by
            simp [keysOf]
          have := hinj n s hn1 hs1 hstrip
          subst this
          have h4 := mergeStacksLoop_ok_not_mem csp anchors _ _ _ _ h n hn
          rw [lookupKey_setKey_self] at h4
          cases h4
      · refine ih _ _ _ _ h ?_ s tdef h1
        intro s1 s2 hs1 hs2 hstrip
        exact hinj s1 s2 (List.mem_cons_of_mem _ hs1) (List.mem_cons_of_mem _ hs2) hstrip

/-- When some user stack name collides (its key already bound in the
stacks object, all user stack names distinct), the loop fails with the
duplicate-stack-name error for a colliding name. -/
theorem mergeStacksLoop_collision_errors
    (csp : List (String × CfnValue)) (anchors : List String) :
    ∀ (l : List (String × CfnTemplate)) (stks : List (String × CfnTemplate))
      (resources : List (String × CfnResource)),
      (keysOf l).Nodup →
      (∃ s, s ∈ keysOf l ∧ (lookupKey stks s).isSome) →
      ∃ s1, mergeStacksLoop csp anchors l stks resources =
          .error (duplicateStackNameMsg s1) ∧
        s1 ∈ keysOf l ∧ (lookupKey stks s1).isSome := by
  intro l
  induction l with
  | nil => intro _ _ _ h; obtain ⟨s, hs, _⟩ := h; simp [keysOf] at hs
  | cons hd rest ih =>
    intro stks resources hnd hex
    obtain ⟨userStack, userDefinedStack⟩ := hd
    by_cases hg : (lookupKey stks userStack).isSome
    · refine ⟨userStack, ?_, ?_, hg⟩
      · simp [mergeStacksLoop, hg]
      · simp [keysOf]
    · obtain ⟨s, hs, hsome⟩ := hex
      have hsne : s ≠ userStack := by
        intro h1; subst h1; exact hg hsome
      have hs1 : s ∈ keysOf rest := by
        rcases List.mem_cons.mp hs with h1 | h1
        · exact absurd h1 hsne
        · exact h1
      have hnd1 : (keysOf rest).Nodup := by
        simpa [keysOf] using hnd.of_cons
      have hsome1 : (lookupKey (setKey stks userStack userDefinedStack) s).isSome :=
        isSome_lookupKey_setKey _ _ _ _ hsome
      obtain ⟨s1, hloop, hmem, hsome2⟩ :=
        ih (setKey stks userStack userDefinedStack)
          (setKey resources (stackResourceIdOf userStack)
            (customNestedStackFor csp anchors userStack userDefinedStack))
          hnd1 ⟨s, hs1, hsome1⟩
      have hs1ne : s1 ≠ userStack := by
        intro h1
        have hnotin : userStack ∉ keysOf rest := by
          have h2 := hnd
          simp only [keysOf, List.map_cons] at h2
          exact (List.nodup_cons.mp h2).1
        exact hnotin (h1 ▸ hmem)
      refine ⟨s1, ?_, List.mem_cons_of_mem _ hmem, ?_⟩
      · simp only [mergeStacksLoop, hg, Bool.false_eq_true, if_false]
        exact hloop
      · rwa [lookupKey_setKey_ne _ _ _ _ hs1ne] at hsome2

/-- A successful merge is exactly a successful run of the stacks loop,
with the outputs of the loop installed as the stacks map and
root-stack resources. -/
theorem merge_ok_destruct (u : UserConfig) (t : DeploymentResources)
    (m : DeploymentResources)
    (h : mergeUserConfigWithTransformOutput u t = .ok m) :
    ∃ stks1 resources1,
      mergeStacksLoop (customStackParams t.rootStack) (allResourceIds t.rootStack)
        u.stacksMap t.stacksMap t.rootStack.Resources = .ok (stks1, resources1) ∧
      m.stacksMap = stks1 ∧ m.rootStack.Resources = resources1 := by
  simp only [mergeUserConfigWithTransformOutput] at h
  cases hloop : mergeStacksLoop (customStackParams t.rootStack)
      (allResourceIds t.rootStack) u.stacksMap t.stacksMap t.rootStack.Resources with
  | error e => rw [hloop] at h; cases h
  | ok p =>
    obtain ⟨stks1, resources1⟩ := p
    rw [hloop] at h
    simp only [Except.ok.injEq] at h
    exact ⟨stks1, resources1, rfl, by rw [← h], by rw [← h]⟩

/-- Looking up a declared parameter key in the synthesized parameter
map: declared keys map to their `customStackParams` lookup, undeclared
keys are absent. -/
theorem lookupKey_parametersForStack (csp : List (String × CfnValue))
    (tdef : CfnTemplate) (k : String) :
    lookupKey (parametersForStack csp tdef) k =
      if k ∈ keysOf tdef.Parameters then some (lookupKey csp k) else none := by
  simp only [parametersForStack, lookupKey_foldl_setKey (fun k1 => lookupKey csp k1)]
  rfl

/-- Characterization of `customStackParams`: the synthesized
`AppSyncApiId` parameter maps to the `Fn.GetAtt` on the API resource,
every root-stack parameter key maps to `Fn.Ref` of itself, and nothing
else is present. -/
theorem lookupKey_customStackParams (rootStack : CfnTemplate) (k : String) :
    lookupKey (customStackParams rootStack) k =
      if k = AppSyncApiId then some (CfnValue.getAtt GraphQLAPILogicalID "ApiId")
      else if k ∈ keysOf rootStack.Parameters then some (CfnValue.ref k)
      else none := by
  by_cases h : k = AppSyncApiId
  · subst h
    simp [customStackParams, lookupKey_setKey_self]
  · rw [customStackParams, lookupKey_setKey_ne _ _ _ _ h,
      lookupKey_foldl_setKey (fun k1 => CfnValue.ref k1)]
    simp [h, lookupKey]

/-- C2: after a successful merge, every user-defined stack name has, at
its stripped resource id in the merged root stack, a synthesized
resource whose `DependsOn` list is exactly `allResourceIds` of the
transform root stack before the merge — the resource ids whose `Type`
is in the fixed allow-list.  This holds for any number of user stacks:
the anchor list is computed once, before the loop, so nested-stack
resources synthesized for earlier user stacks never enter the
`DependsOn` lists of later stacks. -/
theorem merge_nested_stack_dependsOn (u : UserConfig) (t : DeploymentResources)
    (m : DeploymentResources)
    (h : mergeUserConfigWithTransformOutput u t = .ok m)
    (s : String) (hs : s ∈ keysOf u.stacksMap) :
    ∃ r, lookupKey m.rootStack.Resources (stackResourceIdOf s) = some r ∧
      r.dependsOn = allResourceIds t.rootStack := by
  obtain ⟨stks1, resources1, hloop, _, hres⟩ := merge_ok_destruct u t m h
  rw [hres]
  exact mergeStacksLoop_member_dependsOn _ _ _ _ _ _ _ hloop s hs

/-- C5: the merge is deterministic — two runs on the same user bundle
and the same transform bundle produce the same outcome, and in
particular the same stack names, the same root-stack resource ids, the
same resource bindings (hence the same `DependsOn` sets and per-stack
parameter maps), and structurally identical bundles. -/
theorem merge_deterministic (u : UserConfig) (t : DeploymentResources)
    (m1 m2 : Except String DeploymentResources)
    (h1 : mergeUserConfigWithTransformOutput u t = m1)
    (h2 : mergeUserConfigWithTransformOutput u t = m2) :
    m1 = m2 ∧
    ∀ d1 d2, m1 = .ok d1 → m2 = .ok d2 →
      keysOf d1.stacksMap = keysOf d2.stacksMap ∧
      keysOf d1.rootStack.Resources = keysOf d2.rootStack.Resources ∧
      (∀ id, lookupKey d1.rootStack.Resources id = lookupKey d2.rootStack.Resources id) ∧
      d1 = d2 := by
  rw [← h1, ← h2]
  refine ⟨rfl, ?_⟩
  intro d1 d2 hd1 hd2
  rw [hd1] at hd2
  have h3 : d1 = d2 := by injection hd2
  subst h3
  exact ⟨rfl, rfl, fun _ => rfl, rfl⟩

/-- C6: if some user-defined stack name is already bound among the
transform-generated stacks (user stack names being distinct, as keys of
a JavaScript object are), the merge fails with the
duplicate-stack-name error, whose message names a colliding stack, and
no merged bundle is produced. -/
theorem merge_duplicate_stack_name (u : UserConfig) (t : DeploymentResources)
    (hnd : (keysOf u.stacksMap).Nodup)
    (s : String) (hs : s ∈ keysOf u.stacksMap)
    (ht : (lookupKey t.stacksMap s).isSome) :
    ∃ s1, mergeUserConfigWithTransformOutput u t =
        .error (duplicateStackNameMsg s1) ∧
      s1 ∈ keysOf u.stacksMap ∧ (lookupKey t.stacksMap s1).isSome := by
  obtain ⟨s1, hloop, hmem, hsome⟩ :=
    mergeStacksLoop_collision_errors (customStackParams t.rootStack)
      (allResourceIds t.rootStack) u.stacksMap t.stacksMap t.rootStack.Resources
      hnd ⟨s, hs, ht⟩
  refine ⟨s1, ?_, hmem, hsome⟩
  simp only [mergeUserConfigWithTransformOutput]
  rw [hloop]

/-- C7: after a successful merge (stripped resource ids of the user
stack names being injective so that no two user stacks share one
resource id), the synthesized nested-stack resource of each user stack
carries a parameter map that contains exactly the parameter keys the
user stack declares; each declared key is mapped to its lookup among
the own parameters of the root stack passed through as `Fn.Ref`, plus the one
synthesized `AppSyncApiId` parameter exposing the identifier of the
generated API via `Fn.GetAtt`; undeclared keys are absent. -/
theorem merge_nested_stack_parameters (u : UserConfig) (t : DeploymentResources)
    (m : DeploymentResources)
    (h : mergeUserConfigWithTransformOutput u t = .ok m)
    (hinj : ∀ s1 s2, s1 ∈ keysOf u.stacksMap → s2 ∈ keysOf u.stacksMap →
      stackResourceIdOf s1 = stackResourceIdOf s2 → s1 = s2)
    (s : String) (tdef : CfnTemplate) (hs : (s, tdef) ∈ u.stacksMap) :
    ∃ ps, lookupKey m.rootStack.Resources (stackResourceIdOf s) =
        some { resType := "AWS::CloudFormation::Stack"
               dependsOn := allResourceIds t.rootStack
               props := .stackProps ps (templateURLFor s) } ∧
      (∀ k, (lookupKey ps k).isSome ↔ k ∈ keysOf tdef.Parameters) ∧
      (∀ k, k ∈ keysOf tdef.Parameters →
        lookupKey ps k = some (lookupKey (customStackParams t.rootStack) k)) ∧
      (∀ k, lookupKey (customStackParams t.rootStack) k =
        if k = AppSyncApiId then some (CfnValue.getAtt GraphQLAPILogicalID "ApiId")
        else if k ∈ keysOf t.rootStack.Parameters then some (CfnValue.ref k)
        else none) := by
  obtain ⟨stks1, resources1, hloop, _, hres⟩ := merge_ok_destruct u t m h
  refine ⟨parametersForStack (customStackParams t.rootStack) tdef, ?_, ?_, ?_, ?_⟩
  · rw [hres]
    exact mergeStacksLoop_member_resource _ _ _ _ _ _ _ hloop hinj s tdef hs
  · intro k
    rw [lookupKey_parametersForStack]
    by_cases hk : k ∈ keysOf tdef.Parameters <;> simp [hk]
  · intro k hk
    rw [lookupKey_parametersForStack, if_pos hk]
  · intro k
    exact lookupKey_customStackParams t.rootStack k

/-! ## Concrete fixtures used by the merge witnesses -/

/-- A root stack as emitted by the transform: API, schema, a nested
table stack (all three anchor types), one non-anchor resource, and two
parameters. -/
def exRootStack : CfnTemplate :=
  { Resources := [
      ("GraphQLAPI",
        { resType := "AWS::AppSync::GraphQLApi", dependsOn := [], props := .otherProps }),
      ("GraphQLSchema",
        { resType := "AWS::AppSync::GraphQLSchema", dependsOn := [], props := .otherProps }),
      ("PostTable",
        { resType := "AWS::DynamoDB::Table", dependsOn := [], props := .otherProps }),
      ("PostStack",
        { resType := "AWS::CloudFormation::Stack", dependsOn := ["GraphQLAPI"],
          props := .otherProps })]
    Parameters := [("env", "String"), ("S3DeploymentBucket", "String")] }

/-- A transform-output bundle built around `exRootStack`. -/
def exTransformOutput : DeploymentResources :=
  { schema := "type Query"
    resolvers := [("Query.hello.req.vtl", "transform-req")]
    stacksMap := [("ConnectionStack.json", { Resources := [], Parameters := [] })]
    rootStack := exRootStack
    functions := [] }

/-- A user stack template declaring one root parameter, the synthesized
`AppSyncApiId` parameter, and one parameter unknown to the root stack. -/
def exUserStackTemplate : CfnTemplate :=
  { Resources := [
      ("CustomTable",
        { resType := "AWS::DynamoDB::Table", dependsOn := [], props := .otherProps })]
    Parameters := [("env", "String"), ("AppSyncApiId", "String"), ("CustomParam", "String")] }

/-- A user configuration bundle with one custom stack. -/
def exUserConfig : UserConfig :=
  { schema := "type Query"
    resolvers := [("Query.hello.req.vtl", "user-req")]
    stacksMap := [("custom-stack.json", exUserStackTemplate)] }

/-- The merged bundle of the example user configuration and transform
output. -/
def exMerged : DeploymentResources :=
  (mergeUserConfigWithTransformOutput exUserConfig exTransformOutput).toOption.getD
    exTransformOutput

/-- A user configuration whose stack name collides with the
transform-generated `ConnectionStack.json`. -/
def exUserConfigDup : UserConfig :=
  { schema := "type Query"
    resolvers := []
    stacksMap := [("ConnectionStack.json", exUserStackTemplate)] }

/-- Witness for C2: in the merged example bundle, the resource
synthesized for `custom-stack.json` depends on exactly the anchor
resource ids of the transform root stack. -/
theorem merge_nested_stack_dependsOn_witness :
    ∃ r, lookupKey exMerged.rootStack.Resources
        (stackResourceIdOf "custom-stack.json") = some r ∧
      r.dependsOn = allResourceIds exTransformOutput.rootStack :=
  merge_nested_stack_dependsOn exUserConfig exTransformOutput exMerged rfl
    "custom-stack.json" (by simp [exUserConfig, keysOf])

/-- Witness for C5: running the example merge twice yields the same
outcome with identical stack names, resource ids and bindings. -/
theorem merge_deterministic_witness :
    mergeUserConfigWithTransformOutput exUserConfig exTransformOutput =
      mergeUserConfigWithTransformOutput exUserConfig exTransformOutput ∧
    ∀ d1 d2,
      mergeUserConfigWithTransformOutput exUserConfig exTransformOutput = .ok d1 →
      mergeUserConfigWithTransformOutput exUserConfig exTransformOutput = .ok d2 →
      keysOf d1.stacksMap = keysOf d2.stacksMap ∧
      keysOf d1.rootStack.Resources = keysOf d2.rootStack.Resources ∧
      (∀ id, lookupKey d1.rootStack.Resources id = lookupKey d2.rootStack.Resources id) ∧
      d1 = d2 :=
  merge_deterministic exUserConfig exTransformOutput
    (mergeUserConfigWithTransformOutput exUserConfig exTransformOutput)
    (mergeUserConfigWithTransformOutput exUserConfig exTransformOutput) rfl rfl

/-- Witness for C6: merging the colliding example fails with the
duplicate-stack-name error naming the colliding stack. -/
theorem merge_duplicate_stack_name_witness :
    ∃ s1, mergeUserConfigWithTransformOutput exUserConfigDup exTransformOutput =
        .error (duplicateStackNameMsg s1) ∧
      s1 ∈ keysOf exUserConfigDup.stacksMap ∧
      (lookupKey exTransformOutput.stacksMap s1).isSome :=
  merge_duplicate_stack_name exUserConfigDup exTransformOutput
    (by simp [exUserConfigDup, keysOf])
    "ConnectionStack.json" (by simp [exUserConfigDup, keysOf]) (by rfl)

/-- Witness for C7: the parameter map synthesized for
`custom-stack.json` contains exactly the three declared parameter keys,
each bound to its `customStackParams` lookup. -/
theorem merge_nested_stack_parameters_witness :
    ∃ ps, lookupKey exMerged.rootStack.Resources
        (stackResourceIdOf "custom-stack.json") =
        some { resType := "AWS::CloudFormation::Stack"
               dependsOn := allResourceIds exTransformOutput.rootStack
               props := .stackProps ps (templateURLFor "custom-stack.json") } ∧
      (∀ k, (lookupKey ps k).isSome ↔ k ∈ keysOf exUserStackTemplate.Parameters) ∧
      (∀ k, k ∈ keysOf exUserStackTemplate.Parameters →
        lookupKey ps k = some (lookupKey (customStackParams exTransformOutput.rootStack) k)) ∧
      (∀ k, lookupKey (customStackParams exTransformOutput.rootStack) k =
        if k = AppSyncApiId then some (CfnValue.getAtt GraphQLAPILogicalID "ApiId")
        else if k ∈ keysOf exTransformOutput.rootStack.Parameters then some (CfnValue.ref k)
        else none) :=
  merge_nested_stack_parameters exUserConfig exTransformOutput exMerged rfl
    (by
      intro s1 s2 h1 h2 _
      simp only [exUserConfig, keysOf, List.map_cons, List.map_nil,
        List.mem_singleton] at h1 h2
      rw [h1, h2])
    "custom-stack.json" exUserStackTemplate
    (by simp [exUserConfig])

/-! ## File-system model

A directory tree with named entries in listing order; `fs.readdir`
returns names in that order.  Paths are segment lists (the
`path.join`/`path.normalize` calls of the source only concatenate and normalize
separators).  The error strings model the errno messages of the Node
`fs` primitives the source calls; no claim depends on their exact
wording. -/

inductive FsEntry where
  | file (contents : String)
  | dir (entries : List (String × FsEntry))

def pathString (p : List String) : String := String.intercalate "/" p

def lookupPath : FsEntry → List String → Option FsEntry
  | e, [] => some e
  | .file _, _ :: _ => none
  | .dir es, n :: rest =>
    match lookupKey es n with
    | some child => lookupPath child rest
    | none => none

def enoentScandirMsg (p : List String) : String :=
  "ENOENT: no such file or directory, scandir " ++ pathString p

def enotdirScandirMsg (p : List String) : String :=
  "ENOTDIR: not a directory, scandir " ++ pathString p

def enoentOpenMsg (p : List String) : String :=
  "ENOENT: no such file or directory, open " ++ pathString p

def eisdirReadMsg (p : List String) : String :=
  "EISDIR: illegal operation on a directory, read " ++ pathString p

def enoentMkdirMsg (p : List String) : String :=
  "ENOENT: no such file or directory, mkdir " ++ pathString p

/-- `fs.readdir`/`fs.readdirSync`. -/
def readDirAt (fs : FsEntry) (p : List String) : Except String (List String) :=
  match lookupPath fs p with
  | some (.dir es) => .ok (keysOf es)
  | some (.file _) => .error (enotdirScandirMsg p)
  | none => .error (enoentScandirMsg p)

/-- `fs.readFile`/`fs.readFileSync`. -/
def readFileAt (fs : FsEntry) (p : List String) : Except String String :=
  match lookupPath fs p with
  | some (.file c) => .ok c
  | some (.dir _) => .error (eisdirReadMsg p)
  | none => .error (enoentOpenMsg p)

/-- `fs.exists`/`fs.existsSync` (true for files and directories). -/
def existsAt (fs : FsEntry) (p : List String) : Bool := (lookupPath fs p).isSome

/-- Replace the entry at a path (no-op when the path does not denote an
entry); shared plumbing of the write primitives. -/
def updateAt : FsEntry → List String → (FsEntry → FsEntry) → FsEntry
  | e, [], f => f e
  | .file c, _ :: _, _ => .file c
  | .dir es, n :: rest, f =>
    .dir (es.map fun kv => if kv.1 = n then (kv.1, updateAt kv.2 rest f) else kv)

/-- `fs.writeFileSync`: create or overwrite the file at `p`; fails if
the parent directory is missing or the path denotes a directory. -/
def writeFileAt (fs : FsEntry) (p : List String) (contents : String) :
    Except String FsEntry :=
  match p.getLast? with
  | none => .error (enoentOpenMsg p)
  | some name =>
    match lookupPath fs p.dropLast with
    | some (.dir es) =>
      match lookupKey es name with
      | some (.dir _) => .error (eisdirReadMsg p)
      | _ =>
        .ok (updateAt fs p.dropLast fun e =>
          match e with
          | .dir es1 => .dir (setKey es1 name (.file contents))
          | .file c => .file c)
    | _ => .error (enoentOpenMsg p)

/-- `fs.mkdirSync`: create an empty directory at `p`; fails if the
parent directory is missing.  (The source only calls it guarded by a
negative `existsSync` check, so the EEXIST case never arises.) -/
def mkdirAt (fs : FsEntry) (p : List String) : Except String FsEntry :=
  match p.getLast? with
  | none => .error (enoentMkdirMsg p)
  | some name =>
    match lookupPath fs p.dropLast with
    | some (.dir _) =>
      .ok (updateAt fs p.dropLast fun e =>
        match e with
        | .dir es1 => .dir (setKey es1 name (.dir []))
        | .file c => .file c)
    | _ => .error (enoentMkdirMsg p)

/-! ## The loader (`readSchema`, `readProjectConfiguration`, lines 101-179)

File contents parse as JSON through a caller-instantiated
`parse : String → Option CfnTemplate` standing for the `JSON.parse` of
the platform (`none` embeds a thrown `SyntaxError`). -/

/-- `readSchemaDocuments` (lines 315-330): the contents of every file in
listing order, recursing into subdirectories in place. -/
def readSchemaDocumentsEntries : List (String × FsEntry) → List String
  | [] => []
  | (_, .file c) :: rest => c :: readSchemaDocumentsEntries rest
  | (_, .dir es) :: rest =>
    readSchemaDocumentsEntries es ++ readSchemaDocumentsEntries rest

def couldNotFindSchemaMsg (p : List String) : String :=
  "Could not find a schema at " ++ pathString p

/-- `readSchema` (lines 101-115). -/
def readSchema (fs : FsEntry) (projectDirectory : List String) : Except String String :=
  let schemaFilePath := projectDirectory ++ ["schema.graphql"]
  let schemaDirectoryPath := projectDirectory ++ ["schema"]
  if existsAt fs schemaFilePath then
    readFileAt fs schemaFilePath
  else if existsAt fs schemaDirectoryPath then
    match lookupPath fs schemaDirectoryPath with
    | some (.dir es) => .ok (String.intercalate "\n" (readSchemaDocumentsEntries es))
    | some (.file _) => .error (enotdirScandirMsg schemaDirectoryPath)
    | none => .error (enoentScandirMsg schemaDirectoryPath)
  else
    .error (couldNotFindSchemaMsg schemaFilePath)

/-- JavaScript `String.prototype.split` on a single-character
separator, over the character list: splitting the empty string yields
one empty group, and separators delimit (possibly empty) groups. -/
def splitOnCharList (c : Char) : List Char → List (List Char)
  | [] => [[]]
  | ch :: rest =>
    let r := splitOnCharList c rest
    if ch = c then [] :: r
    else
      match r with
      | [] => [[ch]]
      | g :: gs => (ch :: g) :: gs

/-- The split of `stackFile` on a dot. -/
def splitDot (s : String) : List String :=
  (splitOnCharList '.' s.data).map fun l => String.mk l

/-- The extension in the sense of `throwIfNotJSON` (lines 171-172):
the last component of the filename split on every dot
(`nameParts[nameParts.length - 1]`; `split` never yields an empty
array, so the default never fires). -/
def extensionOf (stackFile : String) : String :=
  (splitDot stackFile).getLastD ""

def yamlNotSupportedMsg (stackFile : String) : String :=
  "Yaml is not yet supported. Please convert the CloudFormation stack " ++
    stackFile ++ " to json."

def invalidExtensionMsg (extension stackFile : String) : String :=
  "Invalid extension ." ++ extension ++ " for stack " ++ stackFile

/-- `throwIfNotJSON` (lines 170-179). -/
def throwIfNotJSON (stackFile : String) : Except String Unit :=
  let extension := extensionOf stackFile
  if extension = "yaml" ∨ extension = "yml" then
    .error (yamlNotSupportedMsg stackFile)
  else if extension ≠ "json" then
    .error (invalidExtensionMsg extension stackFile)
  else
    .ok ()

/-- The resolver-loading loop (lines 128-134); listing names are unique
within a directory, so repeated property assignment in listing order is
consing in listing order. -/
def loadResolverFiles (fs : FsEntry) (resolverDirectory : List String) :
    List String → Except String (List (String × String))
  | [] => .ok []
  | resolverFile :: rest =>
    match readFileAt fs (resolverDirectory ++ [resolverFile]) with
    | .error e => .error e
    | .ok contents =>
      match loadResolverFiles fs resolverDirectory rest with
      | .error e => .error e
      | .ok acc => .ok ((resolverFile, contents) :: acc)

/-- The malformed-template error message (line 159).  The source
interpolates `stackFiles` — the whole directory listing, which
JavaScript converts to the comma-joined string — not the current loop
variable `stackFile`. -/
def malformedTemplateMsg (stackFiles : List String) : String :=
  "The CloudFormation template " ++ String.intercalate "," stackFiles ++
    " does not contain valid JSON."

/-- The stack-loading loop (lines 150-161): extension check first, then
read, then parse. -/
def loadStackFiles (parse : String → Option CfnTemplate) (fs : FsEntry)
    (stacksDirectory : List String) (stackFiles : List String) :
    List String → Except String (List (String × CfnTemplate))
  | [] => .ok []
  | stackFile :: rest =>
    match throwIfNotJSON stackFile with
    | .error e => .error e
    | .ok _ =>
      match readFileAt fs (stacksDirectory ++ [stackFile]) with
      | .error e => .error e
      | .ok contents =>
        match parse contents with
        | none => .error (malformedTemplateMsg stackFiles)
        | some tmpl =>
          match loadStackFiles parse fs stacksDirectory stackFiles rest with
          | .error e => .error e
          | .ok acc => .ok ((stackFile, tmpl) :: acc)

/-- The resolver block of `readProjectConfiguration` (lines 124-134). -/
def loadResolversPhase (fs : FsEntry) (projectDirectory : List String) :
    Except String (List (String × String)) :=
  let resolverDirectory := projectDirectory ++ ["resolvers"]
  if existsAt fs resolverDirectory then
    match readDirAt fs resolverDirectory with
    | .error e => .error e
    | .ok resolverFiles => loadResolverFiles fs resolverDirectory resolverFiles
  else
    .ok []

/-- The stacks block of `readProjectConfiguration` (lines 146-162). -/
def loadStacksPhase (parse : String → Option CfnTemplate) (fs : FsEntry)
    (projectDirectory : List String) :
    Except String (List (String × CfnTemplate)) :=
  let stacksDirectory := projectDirectory ++ ["stacks"]
  if existsAt fs stacksDirectory then
    match readDirAt fs stacksDirectory with
    | .error e => .error e
    | .ok stackFiles => loadStackFiles parse fs stacksDirectory stackFiles stackFiles
  else
    .ok []

/-- `readProjectConfiguration` (lines 121-168). -/
def readProjectConfiguration (parse : String → Option CfnTemplate) (fs : FsEntry)
    (projectDirectory : List String) : Except String UserConfig :=
  match readSchema fs projectDirectory with
  | .error e => .error e
  | .ok schema =>
    match loadResolversPhase fs projectDirectory with
    | .error e => .error e
    | .ok resolvers =>
      match loadStacksPhase parse fs projectDirectory with
      | .error e => .error e
      | .ok stks => .ok { stacksMap := stks, resolvers := resolvers, schema := schema }

/-! ## Loader claims -/

theorem throwIfNotJSON_yaml (f : String)
    (h : extensionOf f = "yaml" ∨ extensionOf f = "yml") :
    throwIfNotJSON f = .error (yamlNotSupportedMsg f) := by
  simp only [throwIfNotJSON]
  rw [if_pos h]

theorem throwIfNotJSON_invalid (f : String)
    (h1 : extensionOf f ≠ "json")
    (h2 : ¬(extensionOf f = "yaml" ∨ extensionOf f = "yml")) :
    throwIfNotJSON f = .error (invalidExtensionMsg (extensionOf f) f) := by
  simp only [throwIfNotJSON]
  rw [if_neg h2, if_pos h1]

theorem existsAt_of_readDirAt_ok (fs : FsEntry) (p : List String)
    (files : List String) (h : readDirAt fs p = .ok files) :
    existsAt fs p = true := by
  unfold readDirAt at h
  unfold existsAt
  cases h1 : lookupPath fs p with
  | none => rw [h1] at h; cases h
  | some e => simp [h1]

/-- If every stack file before `f` in the listing passes the extension
check, reads, and parses, and `f` itself fails the extension check, the
stack-loading loop fails with exactly the extension-check error of
`f`. -/
theorem loadStackFiles_first_fail (parse : String → Option CfnTemplate)
    (fs : FsEntry) (dir : List String) (files : List String) :
    ∀ (pre post : List String) (f : String) (e : String),
      (∀ g ∈ pre, throwIfNotJSON g = .ok () ∧
        ∃ c tg, readFileAt fs (dir ++ [g]) = .ok c ∧ parse c = some tg) →
      throwIfNotJSON f = .error e →
      loadStackFiles parse fs dir files (pre ++ f :: post) = .error e := by
  intro pre
  induction pre with
  | nil =>
    intro post f e _ hf
    simp [loadStackFiles, hf]
  | cons g pre1 ih =>
    intro post f e hpre hf
    obtain ⟨hg, c, tg, hread, hparse⟩ := hpre g (List.mem_cons_self _ _)
    have hrest := ih post f e (fun g1 h1 => hpre g1 (List.mem_cons_of_mem _ h1)) hf
    simp [loadStackFiles, hg, hread, hparse, hrest]

/-- C8: when the stacks directory listing has a first offending file
`f` (every earlier file passes the extension check and parses), the
whole load fails with the yaml-unsupported error naming `f` when `f`
has extension `yaml`/`yml`, and with the invalid-extension error naming
`f` and its extension when the extension is neither `json` nor
`yaml`/`yml`. -/
theorem readProjectConfiguration_extension_errors
    (parse : String → Option CfnTemplate) (fs : FsEntry) (proj : List String)
    (sch : String) (rs : List (String × String))
    (files pre post : List String) (f : String)
    (hschema : readSchema fs proj = .ok sch)
    (hres : loadResolversPhase fs proj = .ok rs)
    (hdir : readDirAt fs (proj ++ ["stacks"]) = .ok files)
    (hsplit : files = pre ++ f :: post)
    (hpre : ∀ g ∈ pre, throwIfNotJSON g = .ok () ∧
      ∃ c tg, readFileAt fs ((proj ++ ["stacks"]) ++ [g]) = .ok c ∧ parse c = some tg) :
    ((extensionOf f = "yaml" ∨ extensionOf f = "yml") →
      readProjectConfiguration parse fs proj = .error (yamlNotSupportedMsg f)) ∧
    ((extensionOf f ≠ "json" ∧ extensionOf f ≠ "yaml" ∧ extensionOf f ≠ "yml") →
      readProjectConfiguration parse fs proj =
        .error (invalidExtensionMsg (extensionOf f) f)) := by
  subst hsplit
  have hexists := existsAt_of_readDirAt_ok fs (proj ++ ["stacks"]) _ hdir
  constructor
  · intro hyaml
    have hf := throwIfNotJSON_yaml f hyaml
    have hloop := loadStackFiles_first_fail parse fs (proj ++ ["stacks"])
      (pre ++ f :: post) pre post f _ hpre hf
    simp [readProjectConfiguration, hschema, hres, loadStacksPhase, hexists, hdir, hloop]
  · intro hbad
    have hf := throwIfNotJSON_invalid f hbad.1 (by
      intro h1
      rcases h1 with h1 | h1
      · exact hbad.2.1 h1
      · exact hbad.2.2 h1)
    have hloop := loadStackFiles_first_fail parse fs (proj ++ ["stacks"])
      (pre ++ f :: post) pre post f _ hpre hf
    simp [readProjectConfiguration, hschema, hres, loadStacksPhase, hexists, hdir, hloop]

/-- A structured-template parser instance for concrete runs: only the
exact text `valid` parses. -/
def exParse : String → Option CfnTemplate :=
  fun s => if s = "valid" then some { Resources := [], Parameters := [] } else none

/-- A project whose stacks directory holds a yaml stack file. -/
def exFsYaml : FsEntry :=
  .dir [("project", .dir [
    ("schema.graphql", .file "type Query"),
    ("stacks", .dir [("table.yaml", .file "valid")])])]

/-- Witness for C8: loading a project whose stacks directory contains
`table.yaml` fails with the yaml-unsupported error naming that file. -/
theorem readProjectConfiguration_extension_errors_witness :
    readProjectConfiguration exParse exFsYaml ["project"] =
      .error (yamlNotSupportedMsg "table.yaml") :=
  (readProjectConfiguration_extension_errors exParse exFsYaml ["project"]
    "type Query" [] ["table.yaml"] [] [] "table.yaml"
    rfl rfl rfl rfl (by simp)).1 (Or.inl rfl)

/-- A project with two stack files, of which only the second fails to
parse. -/
def exFsMalformed : FsEntry :=
  .dir [("project", .dir [
    ("schema.graphql", .file "type Query"),
    ("stacks", .dir [("a.json", .file "valid"), ("b.json", .file "bad")])])]

/-- C9: when the single offending stack file `b.json` fails to parse,
the load does fail with the malformed-template error, but the message
interpolates the entire stacks-directory listing (`${stackFiles}`,
comma-joined by the JavaScript array-to-string conversion) rather than
the single offending file `b.json` the claim requires. -/
theorem readProjectConfiguration_malformed_names_listing :
    exParse "bad" = none ∧
    readFileAt exFsMalformed ["project", "stacks", "b.json"] = .ok "bad" ∧
    (∃ t, exParse "valid" = some t) ∧
    readFileAt exFsMalformed ["project", "stacks", "a.json"] = .ok "valid" ∧
    readProjectConfiguration exParse exFsMalformed ["project"] =
      .error (malformedTemplateMsg ["a.json", "b.json"]) ∧
    malformedTemplateMsg ["a.json", "b.json"] =
      "The CloudFormation template a.json,b.json does not contain valid JSON." :=
  ⟨rfl, rfl, ⟨{ Resources := [], Parameters := [] }, rfl⟩, rfl, rfl, rfl⟩

/-! ## The writer (`emptyDirectory`, `writeDeploymentToDisk`, lines 243-313)

Write steps thread the file-system state; a failing step reports the
error together with the state at the moment of failure (the source has
no rollback).  Template serialization (`JSON.stringify(_, null, 4)`) is
a caller-instantiated `stringify : CfnTemplate → String`. -/

/-- The effect of `emptyDirectory` on the entries of a directory: files are
unlinked, subdirectories are kept and emptied recursively. -/
def emptyDirEntries : List (String × FsEntry) → List (String × FsEntry)
  | [] => []
  | (_, .file _) :: rest => emptyDirEntries rest
  | (n, .dir es) :: rest => (n, .dir (emptyDirEntries es)) :: emptyDirEntries rest

/-- `emptyDirectory` (lines 243-254): `readdirSync` the directory (the
failing step when it does not exist), then per entry `lstatSync` and
either recurse (directories) or `unlinkSync` (files).  Since listing
names are unique and every listed entry exists, the walk is the pure
recursive emptying of the entry tree of the directory. -/
def emptyDirectoryAt (fs : FsEntry) (directory : List String) : Except String FsEntry :=
  match lookupPath fs directory with
  | some (.dir es) => .ok (updateAt fs directory fun _ => .dir (emptyDirEntries es))
  | some (.file _) => .error (enotdirScandirMsg directory)
  | none => .error (enoentScandirMsg directory)

/-- Outcome of a state-mutating run: the final file system on success,
or the error together with the file system as left at the failure. -/
inductive WriteResult where
  | ok (fs : FsEntry)
  | error (e : String) (fs : FsEntry)

/-- `if (!fs.existsSync(p)) fs.mkdirSync(p)` (lines 272-274 etc.). -/
def ensureDirAt (fs : FsEntry) (p : List String) : Except String FsEntry :=
  if existsAt fs p then .ok fs else mkdirAt fs p

/-- The resolver-writing loop (lines 275-278). -/
def writeResolverFiles (resolverRootPath : List String) :
    List (String × String) → FsEntry → WriteResult
  | [], fs => .ok fs
  | (resolverFileName, contents) :: rest, fs =>
    match writeFileAt fs (resolverRootPath ++ [resolverFileName]) contents with
    | .error e => .error e fs
    | .ok fs1 => writeResolverFiles resolverRootPath rest fs1

/-- The stack-writing loop (lines 286-297): filenames without a dot get
a default `json` extension, the extension rule is re-checked, then the
template is serialized and written.  (The raw-text branch of the source
for stack values of string type cannot arise here, since every stack
in the bundle is a template tree.) -/
def writeStackFiles (stringify : CfnTemplate → String) (stackRootPath : List String) :
    List (String × CfnTemplate) → FsEntry → WriteResult
  | [], fs => .ok fs
  | (stackFileName, tmpl) :: rest, fs =>
    let fileNameParts := splitDot stackFileName
    let fileNameParts1 :=
      if fileNameParts.length = 1 then fileNameParts ++ ["json"] else fileNameParts
    let fullFileName := String.intercalate "." fileNameParts1
    match throwIfNotJSON fullFileName with
    | .error e => .error e fs
    | .ok _ =>
      match writeFileAt fs (stackRootPath ++ [fullFileName]) (stringify tmpl) with
      | .error e => .error e fs
      | .ok fs1 => writeStackFiles stringify stackRootPath rest fs1

/-- The function-copying loop (lines 305-309): read the packaged
artifact from its recorded source path, write it under `functions`. -/
def writeFunctionFiles (functionRootPath : List String) :
    List (String × List String) → FsEntry → WriteResult
  | [], fs => .ok fs
  | (functionName, srcPath) :: rest, fs =>
    match readFileAt fs srcPath with
    | .error e => .error e fs
    | .ok zipContents =>
      match writeFileAt fs (functionRootPath ++ [functionName]) zipContents with
      | .error e => .error e fs
      | .ok fs1 => writeFunctionFiles functionRootPath rest fs1

/-- `writeDeploymentToDisk` (lines 259-313): empty the target
directory, then write schema, resolvers, stacks, functions and the root
stack in order, creating only the three subdirectories. -/
def writeDeploymentToDisk (stringify : CfnTemplate → String)
    (deployment : DeploymentResources) (directory : List String)
    (rootStackFileName : String) (fs0 : FsEntry) : WriteResult :=
  match emptyDirectoryAt fs0 directory with
  | .error e => .error e fs0
  | .ok fs1 =>
    match writeFileAt fs1 (directory ++ ["schema.graphql"]) deployment.schema with
    | .error e => .error e fs1
    | .ok fs2 =>
      match ensureDirAt fs2 (directory ++ ["resolvers"]) with
      | .error e => .error e fs2
      | .ok fs3 =>
        match writeResolverFiles (directory ++ ["resolvers"]) deployment.resolvers fs3 with
        | .error e fs4 => .error e fs4
        | .ok fs4 =>
          match ensureDirAt fs4 (directory ++ ["stacks"]) with
          | .error e => .error e fs4
          | .ok fs5 =>
            match writeStackFiles stringify (directory ++ ["stacks"])
                deployment.stacksMap fs5 with
            | .error e fs6 => .error e fs6
            | .ok fs6 =>
              match ensureDirAt fs6 (directory ++ ["functions"]) with
              | .error e => .error e fs6
              | .ok fs7 =>
                match writeFunctionFiles (directory ++ ["functions"])
                    deployment.functions fs7 with
                | .error e fs8 => .error e fs8
                | .ok fs8 =>
                  match writeFileAt fs8 (directory ++ [rootStackFileName])
                      (stringify deployment.rootStack) with
                  | .error e => .error e fs8
                  | .ok fs9 => .ok fs9

/-- `buildProject` (lines 14-19).  The loader is awaited and the merge
is a synchronous call, so their failures reject `buildProject`.  The
call to `writeDeploymentToDisk` on line 18 is not awaited: the
writer body (which contains no awaits) runs synchronously, so its disk effects
happen, but a rejection of the promise it returns is never observed by
`buildProject`, which resolves successfully either way. -/
def buildProject (transform : String → DeploymentResources)
    (parse : String → Option CfnTemplate) (stringify : CfnTemplate → String)
    (projectDirectory : List String) (rootStackFileName : String)
    (fs : FsEntry) : WriteResult :=
  match readProjectConfiguration parse fs projectDirectory with
  | .error e => .error e fs
  | .ok userProjectConfig =>
    match mergeUserConfigWithTransformOutput userProjectConfig
        (transform userProjectConfig.schema) with
    | .error e => .error e fs
    | .ok merged =>
      match writeDeploymentToDisk stringify merged (projectDirectory ++ ["build"])
          rootStackFileName fs with
      | .ok fs1 => .ok fs1
      | .error _ fs1 => .ok fs1

/-! ## Writer and orchestrator claims -/

/-- C10: the writer never creates the target directory itself — for
every bundle, writing to a non-existent target directory fails with the
file-system error of the initial directory-emptying step (the
`readdirSync` of the missing target), and the file system is left
exactly as it was: no output file has been written. -/
theorem writeDeploymentToDisk_missing_target (stringify : CfnTemplate → String)
    (deployment : DeploymentResources) (directory : List String)
    (rootStackFileName : String) (fs : FsEntry)
    (h : lookupPath fs directory = none) :
    writeDeploymentToDisk stringify deployment directory rootStackFileName fs =
      .error (enoentScandirMsg directory) fs := by
  simp [writeDeploymentToDisk, emptyDirectoryAt, h]

/-- The serializer instance used in concrete runs, standing for
`JSON.stringify(_, null, 4)`. -/
def exStringify : CfnTemplate → String := fun _ => "serialized-template"

/-- A valid project directory with no `build` subdirectory. -/
def exFsNoBuild : FsEntry :=
  .dir [("project", .dir [("schema.graphql", .file "type Query")])]

/-- Witness for C10: writing the example transform output into the
missing `project/build` directory fails with the scandir error on that
directory and leaves the file system untouched. -/
theorem writeDeploymentToDisk_missing_target_witness :
    writeDeploymentToDisk exStringify exTransformOutput ["project", "build"]
        "rootStack.json" exFsNoBuild =
      .error (enoentScandirMsg ["project", "build"]) exFsNoBuild :=
  writeDeploymentToDisk_missing_target exStringify exTransformOutput
    ["project", "build"] "rootStack.json" exFsNoBuild rfl

/-- A transform engine instance for concrete runs: echoes the schema
and emits the example root stack with no stacks, resolvers or
functions. -/
def exTransform : String → DeploymentResources :=
  fun sch =>
    { schema := sch, resolvers := [], stacksMap := [], rootStack := exRootStack,
      functions := [] }

/-- The bundle obtained by merging the loaded example project (empty
overrides) with the example transform output. -/
def exMergedNoBuild : DeploymentResources :=
  (mergeUserConfigWithTransformOutput
    { stacksMap := [], resolvers := [], schema := "type Query" }
    (exTransform "type Query")).toOption.getD (exTransform "type Query")

/-- C3: building the example project whose `build` directory is missing
runs loader and merge successfully, the writer fails with a file-system
error — and yet `buildProject` itself resolves successfully with the
file system untouched, because line 18 calls `writeDeploymentToDisk`
without `await`, so the writer rejection is an unhandled promise
rejection that never fails the `buildProject` call, contrary to the
claim that every component failure (in particular a Writer disk-write
error) propagates to the caller of `buildProject`. -/
theorem buildProject_swallows_writer_error :
    readProjectConfiguration exParse exFsNoBuild ["project"] =
      .ok { stacksMap := [], resolvers := [], schema := "type Query" } ∧
    mergeUserConfigWithTransformOutput
        { stacksMap := [], resolvers := [], schema := "type Query" }
        (exTransform "type Query") = .ok exMergedNoBuild ∧
    writeDeploymentToDisk exStringify exMergedNoBuild ["project", "build"]
        "rootStack.json" exFsNoBuild =
      .error (enoentScandirMsg ["project", "build"]) exFsNoBuild ∧
    buildProject exTransform exParse exStringify ["project"] "rootStack.json"
        exFsNoBuild = .ok exFsNoBuild :=
  ⟨rfl, rfl, rfl, rfl⟩

end AmplifyUtils
